import Mathlib

/-!
# Verification of `fits_to_stamps.py` against its specification

Shallow embedding of the image-processing core of the repository
`fits-to-stamps` (file `src/fits_to_stamps/fits_to_stamps.py`).

Images (2-D numpy float arrays) are modelled as `List (List ℚ)` (a list of
rows); float arithmetic is modelled exactly over `ℚ`, with the single
IEEE behaviour that matters here — division by zero producing a
non-finite value (Inf/NaN) — captured by the sum type `PyVal`.
Python exceptions are modelled by `Except PyExc`.
-/

set_option maxHeartbeats 1000000

/-- Python exceptions that the embedded code can raise. -/
inductive PyExc : Type where
  | valueError : PyExc
  | indexError : PyExc
  | typeError : PyExc
  | zeroDivisionError : PyExc
deriving DecidableEq, Repr

/-- A 2-D image: a list of rows of exact rational samples. -/
abbrev Img : Type := List (List ℚ)

/-- Number of rows (`shape[0]` of a numpy 2-D array). -/
def Img.nrows (img : Img) : ℕ := img.length

/-- Number of columns (`shape[1]`); numpy arrays are rectangular, so the
first row's length is the column count. -/
def Img.ncols (img : Img) : ℕ := (img.headD []).length

/-- The numpy `shape` of a 2-D image. -/
def Img.shape (img : Img) : ℕ × ℕ := (img.nrows, img.ncols)

/-- Rectangularity: every row has the common column count.  This is an
invariant of every real numpy 2-D array. -/
def Img.isRect (img : Img) : Prop := ∀ row ∈ img, row.length = img.ncols

instance (img : Img) : Decidable img.isRect := by
  unfold Img.isRect; infer_instance

/-- CPython normalisation of one slice endpoint for a sequence of length
`n` (step 1): a negative index gets `n` added and is clamped below at 0;
a non-negative index is clamped above at `n`. -/
def pySliceBound (n : ℕ) (i : ℤ) : ℕ :=
  if i < 0 then ((n : ℤ) + i).toNat else min i.toNat n

/-- CPython slice `xs[lo:hi]` with step 1; `none` means an omitted
endpoint. -/
def pySlice {α : Type} (lo hi : Option ℤ) (xs : List α) : List α :=
  let n := xs.length
  let a := match lo with
    | none => 0
    | some i => pySliceBound n i
  let b := match hi with
    | none => n
    | some i => pySliceBound n i
  (xs.drop a).take (b - a)

/-- 2-D slice `img[rlo:rhi, clo:chi]` of a numpy array. -/
def slice2 (rlo rhi clo chi : Option ℤ) (img : Img) : Img :=
  (pySlice rlo rhi img).map (pySlice clo chi)

/-- Python `int()` applied to an exact float value: truncation toward
zero. -/
def truncQ (q : ℚ) : ℤ := if 0 ≤ q then ⌊q⌋ else -⌊-q⌋

/-- The nine sub-arrays computed inside the valid branch of
`img_to_stamps` (source lines 192–227). -/
structure StampSet : Type where
  topleft : Img
  topcenter : Img
  topright : Img
  midleft : Img
  midcenter : Img
  midright : Img
  bottomleft : Img
  bottomcenter : Img
  bottomright : Img
deriving DecidableEq, Repr

/-- The nine slice expressions of `img_to_stamps` (source lines 192–215),
with Python's float midpoint arithmetic `int(imgsize/2 ± stampsize/2)`
rendered as `truncQ` of the exact rational value, and Python's negative
slice indices (`img[-S:, -S:]` for `bottomright`) kept as written. -/
def mkStamps (img : Img) (stampsize : ℕ) : StampSet :=
  let imgsizex : ℕ := img.nrows
  let imgsizey : ℕ := img.ncols
  let rlo : ℤ := truncQ ((imgsizex : ℚ) / 2 - (stampsize : ℚ) / 2)
  let rhi : ℤ := truncQ ((imgsizex : ℚ) / 2 + (stampsize : ℚ) / 2)
  let clo : ℤ := truncQ ((imgsizey : ℚ) / 2 - (stampsize : ℚ) / 2)
  let chi : ℤ := truncQ ((imgsizey : ℚ) / 2 + (stampsize : ℚ) / 2)
  { topleft := slice2 none (some (stampsize : ℤ)) none (some (stampsize : ℤ)) img
    topcenter := slice2 (some rlo) (some rhi) none (some (stampsize : ℤ)) img
    topright := slice2 (some ((imgsizex : ℤ) - (stampsize : ℤ))) none
      none (some (stampsize : ℤ)) img
    midleft := slice2 none (some (stampsize : ℤ)) (some clo) (some chi) img
    midcenter := slice2 (some rlo) (some rhi) (some clo) (some chi) img
    midright := slice2 (some ((imgsizex : ℤ) - (stampsize : ℤ))) none
      (some clo) (some chi) img
    bottomleft := slice2 none (some (stampsize : ℤ))
      (some ((imgsizey : ℤ) - (stampsize : ℤ))) none img
    bottomcenter := slice2 (some rlo) (some rhi)
      (some ((imgsizey : ℤ) - (stampsize : ℤ))) none img
    bottomright := slice2 (some (-(stampsize : ℤ))) none
      (some (-(stampsize : ℤ))) none img }

/-- Embedding of `img_to_stamps` (source lines 150–231).
`imgsizex/float(xstampsize)` raises `ZeroDivisionError` in Python when
`stampsize = 0`; otherwise the guard `n_possible ≥ 3` on exact rationals
is equivalent to `3*stampsize ≤ size`.  The `else` branch prints
"stampsize is too large for this image" and returns `None`, modelled as
`Except.ok none`. -/
def img_to_stamps (img : Img) (stampsize : ℕ) : Except PyExc (Option StampSet) :=
  if stampsize = 0 then Except.error PyExc.zeroDivisionError
  else if 3 * stampsize ≤ img.nrows ∧ 3 * stampsize ≤ img.ncols then
    Except.ok (some (mkStamps img stampsize))
  else
    Except.ok none

/-- Natural-number half-open 2-D slice `img[a:b, c:d]`, the form in which
§4.3 of the specification states its index arithmetic. -/
def natSlice2 (a b c d : ℕ) (img : Img) : Img :=
  ((img.drop a).take (b - a)).map (fun row => (row.drop c).take (d - c))

/-- The nine regions exactly as §4.3 of the specification states them:
corners at `[0:S]` / `[size-S:size]`, centres at
`[floor(size/2 - S/2) : floor(size/2 + S/2)]`, all as plain 0-indexed
half-open ranges. -/
def specStamps (img : Img) (stampsize : ℕ) : StampSet :=
  let h : ℕ := img.nrows
  let w : ℕ := img.ncols
  let s : ℕ := stampsize
  let rlo : ℕ := (⌊(h : ℚ) / 2 - (s : ℚ) / 2⌋).toNat
  let rhi : ℕ := (⌊(h : ℚ) / 2 + (s : ℚ) / 2⌋).toNat
  let clo : ℕ := (⌊(w : ℚ) / 2 - (s : ℚ) / 2⌋).toNat
  let chi : ℕ := (⌊(w : ℚ) / 2 + (s : ℚ) / 2⌋).toNat
  { topleft := natSlice2 0 s 0 s img
    topcenter := natSlice2 rlo rhi 0 s img
    topright := natSlice2 (h - s) h 0 s img
    midleft := natSlice2 0 s clo chi img
    midcenter := natSlice2 rlo rhi clo chi img
    midright := natSlice2 (h - s) h clo chi img
    bottomleft := natSlice2 0 s (w - s) w img
    bottomcenter := natSlice2 rlo rhi (w - s) w img
    bottomright := natSlice2 (h - s) h (w - s) w img }

/-- `a` is an `r × c` array: `r` rows, each of length `c`. -/
def ShapeIs (a : Img) (r c : ℕ) : Prop :=
  a.length = r ∧ ∀ row ∈ a, row.length = c

instance (a : Img) (r c : ℕ) : Decidable (ShapeIs a r c) := by
  unfold ShapeIs; infer_instance

/-- A Python/numpy float value, as far as these claims need it: either a
finite exact value or a non-finite one (Inf or NaN). -/
inductive PyVal : Type where
  | fin : ℚ → PyVal
  | nonfinite : PyVal
deriving DecidableEq, Repr

/-- numpy float division: a finite numerator over a zero denominator
yields a non-finite value (Inf, or NaN for 0/0) instead of raising. -/
def npDiv (a b : ℚ) : PyVal :=
  if b = 0 then PyVal.nonfinite else PyVal.fin (a / b)

/-- Insert into a sorted list (ascending). -/
def insertSorted (x : ℚ) : List ℚ → List ℚ
  | [] => [x]
  | y :: ys => if x ≤ y then x :: y :: ys else y :: insertSorted x ys

/-- Ascending insertion sort. -/
def sortQ (l : List ℚ) : List ℚ := l.foldr insertSorted []

/-- `np.median` of a 2-D array: sort the flattened data; the middle
element for odd length, the mean of the two middle elements for even
length.  (`np.median` of an empty array is NaN; no theorem below uses the
median of an empty array, so the junk value 0 is never relied upon.) -/
def npMedian (img : Img) : ℚ :=
  let s := sortQ img.flatten
  let n := s.length
  if n % 2 = 1 then s.getD (n / 2) 0
  else (s.getD (n / 2 - 1) 0 + s.getD (n / 2) 0) / 2

/-- `np.clip(x, lo, hi)` on scalars: `min (max x lo) hi` (for `lo > hi`
numpy returns `hi`). -/
def npClip (x lo hi : ℚ) : ℚ := min (max x lo) hi

/-- Embedding of `clipped_linscale_img` (source lines 130–146): clip every
sample to `[median - lo, median + hi]` and return
`cap * clipped / (median + hi)` elementwise, the division being numpy
float division (`npDiv`). -/
def clipped_linscale_img (img : Img) (lo hi : ℚ) (cap : ℚ := 255) :
    List (List PyVal) :=
  let img_med := npMedian img
  img.map (List.map (fun x =>
    npDiv (cap * npClip x (img_med - lo) (img_med + hi)) (img_med + hi)))

/-- The Contrast Scaler formula exactly as §4.2 of the specification
states it: `m = median(array)`, clip every sample to `[m - lo, m + hi]`,
then `output = cap * clipped / (m + hi)` (denominator the upper clip
bound alone). -/
def contrastScaleSpec (img : Img) (lo hi cap : ℚ) : List (List ℚ) :=
  let m := npMedian img
  img.map (List.map (fun x => cap * (min (max x (m - lo)) (m + hi)) / (m + hi)))

/-- Python `str.split(sep)` for a one-character separator, over the
character list of the string (`"".split(sep) = [""]`). -/
def splitOnChar (sep : Char) : List Char → List (List Char)
  | [] => [[]]
  | c :: rest =>
    let r := splitOnChar sep rest
    if c = sep then [] :: r
    else
      match r with
      | [] => [[c]]
      | g :: gs => (c :: g) :: gs

/-- Python `str.strip('[]')`: remove every leading and trailing `[` or
`]` character. -/
def stripBrackets (l : List Char) : List Char :=
  let keep : Char → Bool := fun c => decide (c = '[') || decide (c = ']')
  ((l.dropWhile keep).reverse.dropWhile keep).reverse

/-- Digits-to-number accumulator. -/
def digitsToNat (l : List Char) : ℕ :=
  l.foldl (fun n c => 10 * n + (c.toNat - 48)) 0

/-- Python `int(str)`: strip whitespace, allow one optional sign, then
require a non-empty run of decimal digits; anything else raises
`ValueError` (modelled as `none`). -/
def pyIntOfChars (l : List Char) : Option ℤ :=
  let t := (((l.dropWhile Char.isWhitespace).reverse.dropWhile
    Char.isWhitespace).reverse)
  match t with
  | '-' :: rest =>
    if rest ≠ [] ∧ rest.all Char.isDigit then some (-(digitsToNat rest : ℤ))
    else none
  | '+' :: rest =>
    if rest ≠ [] ∧ rest.all Char.isDigit then some (digitsToNat rest : ℤ)
    else none
  | _ =>
    if t ≠ [] ∧ t.all Char.isDigit then some (digitsToNat t : ℤ)
    else none

/-- `[int(x) for x in s.split(':')]`: `none` models the `ValueError`
raised when any token is not an integer. -/
def parseIntPair (l : List Char) : Option (List ℤ) :=
  (splitOnChar ':' l).mapM pyIntOfChars

/-- The body of `trim_image` from the point where a truthy `trimsec`
string is in hand (source lines 106–126): the degenerate box
`"[0:0,0:0]"` and the falsy empty string skip trimming; otherwise the
string is stripped of brackets and split on `','`; the first pair is
parsed (a parse failure is the `ValueError` the handler catches,
returning the untrimmed image), then `datasec[1]` is accessed (an
`IndexError` here escapes the `except ValueError` handler), and finally
the image is sliced as `fits_img[x0-1:x1, y0-1:y1]` where `[x0, x1]`
came from the SECOND pair and `[y0, y1]` from the FIRST. -/
def trimBody (img : Img) (trimsec : String) : Except PyExc (Option Img) :=
  if trimsec ≠ "" ∧ trimsec ≠ "[0:0,0:0]" then
    match splitOnChar ',' (stripBrackets trimsec.data) with
    | [] => Except.error PyExc.indexError
    | d0 :: rest =>
      match parseIntPair d0 with
      | none => Except.ok (some img)
      | some datasec_y =>
        match rest with
        | [] => Except.error PyExc.indexError
        | d1 :: _ =>
          match parseIntPair d1 with
          | none => Except.ok (some img)
          | some datasec_x =>
            match datasec_x.get? 0, datasec_x.get? 1,
                  datasec_y.get? 0, datasec_y.get? 1 with
            | some x0, some x1, some y0, some y1 =>
              Except.ok (some (slice2 (some (x0 - 1)) (some x1)
                (some (y0 - 1)) (some y1) img))
            | _, _, _, _ => Except.error PyExc.indexError
  else
    Except.ok (some img)

/-- First-match-wins scan of the trim key candidates over the header
(`for h in trimkeys: if h in fits_hdr: ...`). -/
def lookupFirst (keys : List String) (hdr : List (String × String)) :
    Option String :=
  match keys with
  | [] => none
  | k :: ks =>
    match hdr.lookup k with
    | some v => some v
    | none => lookupFirst ks hdr

/-- Embedding of `trim_image` (source lines 77–126).  A truthy
`custombox` is used directly; otherwise the header is scanned for the
first present trim key; if none is present and `custombox is None` the
function prints a diagnostic and returns `None` (`Except.ok none`); in
every other path `trimBody` finishes the job. -/
def trim_image (img : Img) (hdr : List (String × String))
    (trimkeys : List String) (custombox : Option String) :
    Except PyExc (Option Img) :=
  match custombox with
  | some s =>
    if s ≠ "" then trimBody img s
    else
      match lookupFirst trimkeys hdr with
      | some v => trimBody img v
      | none => Except.ok (some img)
  | none =>
    match lookupFirst trimkeys hdr with
    | some v => trimBody img v
    | none => Except.ok none

/-- The default trim key candidates of the source. -/
def defaultTrimkeys : List String := ["TRIMSEC", "DATASEC", "TRIMSEC0"]

/-- `np.hstack` of two 2-D arrays: rowwise concatenation. -/
def hstack2 (a b : Img) : Img := List.zipWith (fun r s => r ++ s) a b

/-- `np.hstack` of a tuple of 2-D arrays. -/
def hstackList (l : List Img) : Img :=
  match l with
  | [] => []
  | a :: rest => rest.foldl hstack2 a

/-- Embedding of the mosaic-composition section of
`fits_to_zscaled_stamps` (source lines 272–324).  Vertical separator
strips `np.array([[255.0]*separatorwidth]*row_ysize)` sit between the
stamps of each `np.hstack` row; the two `np.vstack` separators are the
1-D arrays `np.array([255.0]*(row_xsize*3 + separatorwidth*2))`, which
numpy promotes to a single row each; the assembled canvas is finally
flipped vertically (`np.flipud`).  The stamp groupings per row are the
source's own (`topleft, midleft, bottomleft`, etc.). -/
def compose_mosaic (stamps : StampSet) (separatorwidth : ℕ) : Img :=
  let toprow_xsize := stamps.topright.nrows
  let toprow_ysize := stamps.topright.ncols
  let toprow_separr : Img :=
    List.replicate toprow_ysize (List.replicate separatorwidth (255 : ℚ))
  let toprow_stamp := hstackList [stamps.topleft, toprow_separr,
    stamps.midleft, toprow_separr, stamps.bottomleft]
  let midrow_xsize := stamps.midright.nrows
  let midrow_ysize := stamps.midright.ncols
  let midrow_separr : Img :=
    List.replicate midrow_ysize (List.replicate separatorwidth (255 : ℚ))
  let midrow_stamp := hstackList [stamps.topcenter, midrow_separr,
    stamps.midcenter, midrow_separr, stamps.bottomcenter]
  let bottomrow_ysize := stamps.bottomright.ncols
  let bottomrow_separr : Img :=
    List.replicate bottomrow_ysize (List.replicate separatorwidth (255 : ℚ))
  let bottomrow_stamp := hstackList [stamps.topright, bottomrow_separr,
    stamps.midright, bottomrow_separr, stamps.bottomright]
  let vsep1 : Img :=
    [List.replicate (toprow_xsize * 3 + separatorwidth * 2) (255 : ℚ)]
  let vsep2 : Img :=
    [List.replicate (midrow_xsize * 3 + separatorwidth * 2) (255 : ℚ)]
  (toprow_stamp ++ vsep1 ++ midrow_stamp ++ vsep2 ++ bottomrow_stamp).reverse

/-- Count of `%` conversion specifiers in a Python format string
(`%%` is a literal percent and consumes no argument). -/
def countSpecs : List Char → ℕ
  | [] => 0
  | '%' :: '%' :: rest => countSpecs rest
  | '%' :: _ :: rest => 1 + countSpecs rest
  | _ :: rest => countSpecs rest

/-- Python `format % (a, b)` with a 2-tuple of arguments: a `TypeError`
("not enough arguments" / "not all arguments converted") is raised unless
the format string has exactly two conversion specifiers. -/
def pyPercentFormat2 (fmt : String) : Except PyExc Unit :=
  if countSpecs fmt.data = 2 then Except.ok () else Except.error PyExc.typeError

/-- The failure-path format string of `parallel_fits_worker` (source
lines 355–356). -/
def workerErrorFormat : String :=
  "could not convert %s to stamp PNG: %s, error was: %r"

/-- The success-path format string of `parallel_fits_worker` (source
line 351). -/
def workerOkFormat : String := "%s -> %s OK"

/-- Embedding of `parallel_fits_worker` (source lines 333–357) as a
function of the outcome of its `fits_to_zscaled_stamps` call: on success
it prints `workerOkFormat % (fits, outpng)` and returns the output path;
on any exception it prints `workerErrorFormat % (fits, e)` — a 2-tuple —
and returns `None`.  Either `print` re-raises if its `%`-formatting
fails, and nothing catches such a secondary exception. -/
def parallel_fits_worker (pipeline : Except PyExc String) :
    Except PyExc (Option String) :=
  match pipeline with
  | Except.ok donepng =>
    match pyPercentFormat2 workerOkFormat with
    | Except.ok _ => Except.ok (some donepng)
    | Except.error t => Except.error t
  | Except.error _ =>
    match pyPercentFormat2 workerErrorFormat with
    | Except.ok _ => Except.ok none
    | Except.error t => Except.error t

/-! ## Arithmetic helper lemmas -/

/-- Floor of an exact half of a natural number is natural division by 2. -/
theorem floor_half_nat (k : ℕ) : ⌊(k : ℚ) / 2⌋ = ((k / 2 : ℕ) : ℤ) := by
  rw [Int.floor_eq_iff]
  constructor
  · rw [le_div_iff₀ (by norm_num : (0:ℚ) < 2)]
    exact_mod_cast Nat.div_mul_le_self k 2
  · rw [div_lt_iff₀ (by norm_num : (0:ℚ) < 2)]
    have h : k < (k / 2 + 1) * 2 := by omega
    push_cast
    exact_mod_cast h

/-- `truncQ` agrees with floor on non-negative values. -/
theorem truncQ_eq_floor (q : ℚ) (h : 0 ≤ q) : truncQ q = ⌊q⌋ := if_pos h

/-- `int(h/2 - s/2)` in Python is `(h - s) / 2` in natural arithmetic. -/
theorem truncQ_half_sub (h s : ℕ) (hs : s ≤ h) :
    truncQ ((h : ℚ) / 2 - (s : ℚ) / 2) = (((h - s) / 2 : ℕ) : ℤ) := by
  have e : (h : ℚ) / 2 - (s : ℚ) / 2 = ((h - s : ℕ) : ℚ) / 2 := by
    rw [Nat.cast_sub hs]; ring
  rw [e, truncQ_eq_floor _ (by positivity), floor_half_nat]

/-- `int(h/2 + s/2)` in Python is `(h + s) / 2` in natural arithmetic. -/
theorem truncQ_half_add (h s : ℕ) :
    truncQ ((h : ℚ) / 2 + (s : ℚ) / 2) = (((h + s) / 2 : ℕ) : ℤ) := by
  have e : (h : ℚ) / 2 + (s : ℚ) / 2 = ((h + s : ℕ) : ℚ) / 2 := by
    push_cast; ring
  rw [e, truncQ_eq_floor _ (by positivity), floor_half_nat]

/-- The specification's `floor(h/2 - s/2)` as a natural number. -/
theorem floor_half_sub_toNat (h s : ℕ) (hs : s ≤ h) :
    (⌊(h : ℚ) / 2 - (s : ℚ) / 2⌋).toNat = (h - s) / 2 := by
  have e : (h : ℚ) / 2 - (s : ℚ) / 2 = ((h - s : ℕ) : ℚ) / 2 := by
    rw [Nat.cast_sub hs]; ring
  rw [e, floor_half_nat, Int.toNat_natCast]

/-- The specification's `floor(h/2 + s/2)` as a natural number. -/
theorem floor_half_add_toNat (h s : ℕ) :
    (⌊(h : ℚ) / 2 + (s : ℚ) / 2⌋).toNat = (h + s) / 2 := by
  have e : (h : ℚ) / 2 + (s : ℚ) / 2 = ((h + s : ℕ) : ℚ) / 2 := by
    push_cast; ring
  rw [e, floor_half_nat, Int.toNat_natCast]

/-! ## Python slice lemmas -/

theorem pySlice_none_some {α : Type} (s : ℕ) (xs : List α) (h : s ≤ xs.length) :
    pySlice none (some (s : ℤ)) xs = (xs.drop 0).take (s - 0) := by
  unfold pySlice pySliceBound
  have h1 : ¬ ((s : ℤ) < 0) := by omega
  simp only [h1, if_false, Int.toNat_natCast]
  have h2 : min s xs.length = s := by omega
  rw [h2]

theorem pySlice_some_some {α : Type} (a b : ℕ) (xs : List α)
    (ha : a ≤ xs.length) (hb : b ≤ xs.length) :
    pySlice (some (a : ℤ)) (some (b : ℤ)) xs = (xs.drop a).take (b - a) := by
  unfold pySlice pySliceBound
  have h1 : ¬ ((a : ℤ) < 0) := by omega
  have h2 : ¬ ((b : ℤ) < 0) := by omega
  simp only [h1, h2, if_false, Int.toNat_natCast]
  have h3 : min a xs.length = a := by omega
  have h4 : min b xs.length = b := by omega
  rw [h3, h4]

theorem pySlice_sub_none {α : Type} (s : ℕ) (xs : List α) (h : s ≤ xs.length) :
    pySlice (some ((xs.length : ℤ) - (s : ℤ))) none xs =
      (xs.drop (xs.length - s)).take (xs.length - (xs.length - s)) := by
  unfold pySlice pySliceBound
  have h1 : ¬ ((xs.length : ℤ) - (s : ℤ) < 0) := by omega
  have h2 : ((xs.length : ℤ) - (s : ℤ)).toNat = xs.length - s := by omega
  simp only [h1, if_false, h2]
  have h3 : min (xs.length - s) xs.length = xs.length - s := by omega
  rw [h3]

theorem pySlice_neg_none {α : Type} (s : ℕ) (xs : List α) (hs : 1 ≤ s)
    (h : s ≤ xs.length) :
    pySlice (some (-(s : ℤ))) none xs =
      (xs.drop (xs.length - s)).take (xs.length - (xs.length - s)) := by
  unfold pySlice pySliceBound
  have h1 : -(s : ℤ) < 0 := by omega
  have h2 : ((xs.length : ℤ) + -(s : ℤ)).toNat = xs.length - s := by omega
  simp only [h1, if_true, h2]

/-- Shape of a natural-number 2-D slice of a rectangular image. -/
theorem natSlice2_shape (img : Img) (W : ℕ)
    (hrect : ∀ row ∈ img, row.length = W) (a b c d : ℕ)
    (hab : a ≤ b) (hb : b ≤ img.length) (hcd : c ≤ d) (hd : d ≤ W) :
    ShapeIs (natSlice2 a b c d img) (b - a) (d - c) := by
  constructor
  · simp only [natSlice2, List.length_map, List.length_take, List.length_drop]
    omega
  · intro row hrow
    simp only [natSlice2, List.mem_map] at hrow
    obtain ⟨r, hr, rfl⟩ := hrow
    have hrimg : r ∈ img := List.drop_subset _ _ (List.take_subset _ _ hr)
    have hlen : r.length = W := hrect r hrimg
    simp only [List.length_take, List.length_drop, hlen]
    omega

/-- A 2-D Python slice whose row part and column part both reduce to
plain drop/take windows equals the corresponding `natSlice2`. -/
theorem slice2_eq_natSlice2 (img : Img) (hrect : img.isRect)
    (P Q R T : Option ℤ) (a b c d : ℕ)
    (hrow : pySlice P Q img = (img.drop a).take (b - a))
    (hcol : ∀ xs : List ℚ, xs.length = img.ncols →
      pySlice R T xs = (xs.drop c).take (d - c)) :
    slice2 P Q R T img = natSlice2 a b c d img := by
  unfold slice2 natSlice2
  rw [hrow]
  apply List.map_congr_left
  intro r hr
  exact hcol r (hrect r (List.drop_subset _ _ (List.take_subset _ _ hr)))

/-- On a rectangular image large enough for nine stamps, the slice
expressions of `img_to_stamps` coincide with the index arithmetic of
§4.3 of the specification. -/
theorem mkStamps_eq_specStamps (img : Img) (S : ℕ) (hS : 1 ≤ S)
    (hrect : img.isRect) (hH : 3 * S ≤ img.nrows) (hW : 3 * S ≤ img.ncols) :
    mkStamps img S = specStamps img S := by
  have hSH : S ≤ img.nrows := by omega
  have hSW : S ≤ img.ncols := by omega
  have hSHl : S ≤ img.length := hSH
  have hlen : img.length = img.nrows := rfl
  have colTake : ∀ xs : List ℚ, xs.length = img.ncols →
      pySlice none (some (S : ℤ)) xs = (xs.drop 0).take (S - 0) := by
    intro xs hxs
    exact pySlice_none_some S xs (by rw [hxs]; exact hSW)
  have colMid : ∀ xs : List ℚ, xs.length = img.ncols →
      pySlice (some (((img.ncols - S) / 2 : ℕ) : ℤ))
        (some (((img.ncols + S) / 2 : ℕ) : ℤ)) xs =
        (xs.drop ((img.ncols - S) / 2)).take
          ((img.ncols + S) / 2 - (img.ncols - S) / 2) := by
    intro xs hxs
    exact pySlice_some_some _ _ xs (by rw [hxs]; omega) (by rw [hxs]; omega)
  have colBack : ∀ xs : List ℚ, xs.length = img.ncols →
      pySlice (some ((img.ncols : ℤ) - (S : ℤ))) none xs =
        (xs.drop (img.ncols - S)).take (img.ncols - (img.ncols - S)) := by
    intro xs hxs
    have := pySlice_sub_none S xs (by rw [hxs]; exact hSW)
    rw [hxs] at this
    exact this
  have colNeg : ∀ xs : List ℚ, xs.length = img.ncols →
      pySlice (some (-(S : ℤ))) none xs =
        (xs.drop (img.ncols - S)).take (img.ncols - (img.ncols - S)) := by
    intro xs hxs
    have := pySlice_neg_none S xs hS (by rw [hxs]; exact hSW)
    rw [hxs] at this
    exact this
  have rowMid : pySlice (some (((img.nrows - S) / 2 : ℕ) : ℤ))
      (some (((img.nrows + S) / 2 : ℕ) : ℤ)) img =
      (img.drop ((img.nrows - S) / 2)).take
        ((img.nrows + S) / 2 - (img.nrows - S) / 2) :=
    pySlice_some_some _ _ img (by omega) (by omega)
  simp only [mkStamps, specStamps]
  rw [truncQ_half_sub img.nrows S hSH, truncQ_half_add img.nrows S,
    truncQ_half_sub img.ncols S hSW, truncQ_half_add img.ncols S,
    floor_half_sub_toNat img.nrows S hSH, floor_half_add_toNat img.nrows S,
    floor_half_sub_toNat img.ncols S hSW, floor_half_add_toNat img.ncols S]
  congr 1
  · exact slice2_eq_natSlice2 img hrect _ _ _ _ 0 S 0 S
      (pySlice_none_some S img hSHl) colTake
  · exact slice2_eq_natSlice2 img hrect _ _ _ _ _ _ 0 S rowMid colTake
  · exact slice2_eq_natSlice2 img hrect _ _ _ _ (img.nrows - S) img.nrows 0 S
      (pySlice_sub_none S img hSHl) colTake
  · exact slice2_eq_natSlice2 img hrect _ _ _ _ 0 S _ _
      (pySlice_none_some S img hSHl) colMid
  · exact slice2_eq_natSlice2 img hrect _ _ _ _ _ _ _ _ rowMid colMid
  · exact slice2_eq_natSlice2 img hrect _ _ _ _ (img.nrows - S) img.nrows _ _
      (pySlice_sub_none S img hSHl) colMid
  · exact slice2_eq_natSlice2 img hrect _ _ _ _ 0 S (img.ncols - S) img.ncols
      (pySlice_none_some S img hSHl) colBack
  · exact slice2_eq_natSlice2 img hrect _ _ _ _ _ _ (img.ncols - S) img.ncols
      rowMid colBack
  · exact slice2_eq_natSlice2 img hrect _ _ _ _ (img.nrows - S) img.nrows
      (img.ncols - S) img.ncols (pySlice_neg_none S img hS hSHl) colNeg

/-- All nine stamps of a `StampSet` are `s × s` arrays. -/
def stampShapesOk (st : StampSet) (s : ℕ) : Prop :=
  ShapeIs st.topleft s s ∧ ShapeIs st.topcenter s s ∧ ShapeIs st.topright s s ∧
  ShapeIs st.midleft s s ∧ ShapeIs st.midcenter s s ∧ ShapeIs st.midright s s ∧
  ShapeIs st.bottomleft s s ∧ ShapeIs st.bottomcenter s s ∧
  ShapeIs st.bottomright s s

instance (st : StampSet) (s : ℕ) : Decidable (stampShapesOk st s) := by
  unfold stampShapesOk; infer_instance

/-- On a rectangular image large enough for nine stamps, every stamp of
`img_to_stamps` is an `S × S` array. -/
theorem mkStamps_shapes (img : Img) (S : ℕ) (hS : 1 ≤ S)
    (hrect : img.isRect) (hH : 3 * S ≤ img.nrows) (hW : 3 * S ≤ img.ncols) :
    stampShapesOk (mkStamps img S) S := by
  have hSH : S ≤ img.nrows := by omega
  have hSW : S ≤ img.ncols := by omega
  have hlen : img.length = img.nrows := rfl
  have key : ∀ a b c d : ℕ, a ≤ b → b ≤ img.length → c ≤ d → d ≤ img.ncols →
      b - a = S → d - c = S → ShapeIs (natSlice2 a b c d img) S S := by
    intro a b c d h1 h2 h3 h4 h5 h6
    have hsh := natSlice2_shape img img.ncols hrect a b c d h1 h2 h3 h4
    rw [h5, h6] at hsh
    exact hsh
  rw [mkStamps_eq_specStamps img S hS hrect hH hW]
  simp only [specStamps, stampShapesOk]
  rw [floor_half_sub_toNat img.nrows S hSH, floor_half_add_toNat img.nrows S,
    floor_half_sub_toNat img.ncols S hSW, floor_half_add_toNat img.ncols S]
  refine ⟨?_, ?_, ?_, ?_, ?_, ?_, ?_, ?_, ?_⟩ <;> (apply key <;> omega)

/-- C1: for every rectangular array with `H ≥ 3S` and `W ≥ 3S`
(`S = stampsize ≥ 1`) the Region Extractor returns exactly nine stamps,
each of shape `(S, S)`, computed by the fixed index arithmetic of §4.3
(corners at `[0:S]` / `[H-S:H]`, centres at
`[floor(H/2-S/2):floor(H/2+S/2)]`); and for every array with `H < 3S` or
`W < 3S` it returns no result, signalling the "stamp size too large"
condition (print + `return None`). -/
theorem c1_region_extractor (img : Img) (S : ℕ) (hS : 1 ≤ S)
    (hrect : img.isRect) :
    (3 * S ≤ img.nrows ∧ 3 * S ≤ img.ncols →
      img_to_stamps img S = Except.ok (some (mkStamps img S)) ∧
      mkStamps img S = specStamps img S ∧
      stampShapesOk (mkStamps img S) S) ∧
    ((img.nrows < 3 * S ∨ img.ncols < 3 * S) →
      img_to_stamps img S = Except.ok none) := by
  constructor
  · rintro ⟨hH, hW⟩
    refine ⟨?_, mkStamps_eq_specStamps img S hS hrect hH hW,
      mkStamps_shapes img S hS hrect hH hW⟩
    unfold img_to_stamps
    rw [if_neg (by omega), if_pos ⟨hH, hW⟩]
  · intro h
    unfold img_to_stamps
    rw [if_neg (by omega), if_neg (by omega)]

/-- A concrete 3 × 3 all-zero image. -/
def img3x3 : Img := List.replicate 3 (List.replicate 3 (0 : ℚ))

/-- Witness for C1 at `stampsize = 1`: a 3 × 3 image yields the nine
stamps, a 1 × 1 image yields `None`. -/
theorem c1_region_extractor_witness :
    (1 ≤ 1 ∧ Img.isRect img3x3 ∧ 3 * 1 ≤ Img.nrows img3x3) ∧
    img_to_stamps img3x3 1 = Except.ok (some (mkStamps img3x3 1)) ∧
    stampShapesOk (mkStamps img3x3 1) 1 ∧
    img_to_stamps [[(0 : ℚ)]] 1 = Except.ok none := by
  refine ⟨⟨le_refl 1, by decide, by decide⟩, ?_, ?_, ?_⟩
  · exact ((c1_region_extractor img3x3 1 (le_refl 1) (by decide)).1
      (by decide)).1
  · exact ((c1_region_extractor img3x3 1 (le_refl 1) (by decide)).1
      (by decide)).2.2
  · exact (c1_region_extractor [[(0 : ℚ)]] 1 (le_refl 1) (by decide)).2
      (by decide)

/-! ## Mosaic shape lemmas -/

theorem hstack2_rows : ∀ (a b : Img) (c1 c2 : ℕ),
    (∀ x ∈ a, x.length = c1) → (∀ x ∈ b, x.length = c2) →
    ∀ row ∈ hstack2 a b, row.length = c1 + c2 := by
  intro a
  induction a with
  | nil =>
    intro b c1 c2 _ _ row hrow
    simp [hstack2] at hrow
  | cons x xs ih =>
    intro b c1 c2 hx hb row hrow
    cases b with
    | nil => simp [hstack2] at hrow
    | cons y ys =>
      simp only [hstack2, List.zipWith_cons_cons, List.mem_cons] at hrow
      rcases hrow with h | h
      · subst h
        rw [List.length_append, hx x (by simp), hb y (by simp)]
      · exact ih ys c1 c2 (fun z hz => hx z (List.mem_cons_of_mem _ hz))
          (fun z hz => hb z (List.mem_cons_of_mem _ hz)) row h

theorem shapeIs_hstack2 {a b : Img} {r c1 c2 : ℕ}
    (ha : ShapeIs a r c1) (hb : ShapeIs b r c2) :
    ShapeIs (hstack2 a b) r (c1 + c2) := by
  refine ⟨?_, hstack2_rows a b c1 c2 ha.2 hb.2⟩
  simp [hstack2, List.length_zipWith, ha.1, hb.1]

theorem shapeIs_replicate (r c : ℕ) (x : ℚ) :
    ShapeIs (List.replicate r (List.replicate c x)) r c := by
  constructor
  · simp
  · intro row hrow
    rw [List.eq_of_mem_replicate hrow]
    simp

theorem shapeIs_append {a b : Img} {r1 r2 c : ℕ}
    (ha : ShapeIs a r1 c) (hb : ShapeIs b r2 c) :
    ShapeIs (a ++ b) (r1 + r2) c := by
  constructor
  · simp [ha.1, hb.1]
  · intro row hrow
    rcases List.mem_append.mp hrow with h | h
    · exact ha.2 row h
    · exact hb.2 row h

theorem shapeIs_reverse {a : Img} {r c : ℕ} (ha : ShapeIs a r c) :
    ShapeIs a.reverse r c := by
  refine ⟨by simp [ha.1], ?_⟩
  intro row hrow
  exact ha.2 row (List.mem_reverse.mp hrow)

theorem shapeIs_congr {a : Img} {r c r' c' : ℕ} (ha : ShapeIs a r c)
    (hr : r = r') (hc : c = c') : ShapeIs a r' c' := by
  rw [← hr, ← hc]; exact ha

theorem nrows_of_shapeIs {a : Img} {r c : ℕ} (ha : ShapeIs a r c) :
    a.nrows = r := ha.1

theorem ncols_of_shapeIs {a : Img} {r c : ℕ} (ha : ShapeIs a r c)
    (hr : 0 < r) : a.ncols = c := by
  cases a with
  | nil => exact absurd ha.1 (by simp; omega)
  | cons x t => exact ha.2 x (by simp)

theorem shape_of_shapeIs {a : Img} {r c : ℕ} (ha : ShapeIs a r c)
    (hr : 0 < r) : a.shape = (r, c) := by
  rw [Img.shape, nrows_of_shapeIs ha, ncols_of_shapeIs ha hr]

/-- Shape of the assembled mosaic canvas: the three `np.hstack` row
stacks are `S × (3S + 2·sep)`, but the two `np.vstack` separators are
single rows, so the canvas is `(3S + 2) × (3S + 2·sep)`. -/
theorem compose_mosaic_shape (st : StampSet) (S sep : ℕ) (hS : 1 ≤ S)
    (h : stampShapesOk st S) :
    ShapeIs (compose_mosaic st sep) (3 * S + 2) (3 * S + 2 * sep) := by
  obtain ⟨htl, htc, htr, hml, hmc, hmr, hbl, hbc, hbr⟩ := h
  have e1 : st.topright.nrows = S := nrows_of_shapeIs htr
  have e2 : st.topright.ncols = S := ncols_of_shapeIs htr (by omega)
  have e3 : st.midright.nrows = S := nrows_of_shapeIs hmr
  have e4 : st.midright.ncols = S := ncols_of_shapeIs hmr (by omega)
  have e5 : st.bottomright.ncols = S := ncols_of_shapeIs hbr (by omega)
  have hsep : ShapeIs (List.replicate S (List.replicate sep (255 : ℚ))) S sep :=
    shapeIs_replicate S sep 255
  have hrowstack : ∀ x y z : Img, ShapeIs x S S → ShapeIs y S S →
      ShapeIs z S S →
      ShapeIs (hstackList [x, List.replicate S (List.replicate sep (255 : ℚ)),
        y, List.replicate S (List.replicate sep (255 : ℚ)), z])
        S (3 * S + 2 * sep) := by
    intro x y z hx hy hz
    have hchain : ShapeIs (hstack2 (hstack2 (hstack2 (hstack2 x
        (List.replicate S (List.replicate sep (255 : ℚ)))) y)
        (List.replicate S (List.replicate sep (255 : ℚ)))) z)
        S (S + sep + S + sep + S) :=
      shapeIs_hstack2 (shapeIs_hstack2 (shapeIs_hstack2
        (shapeIs_hstack2 hx hsep) hy) hsep) hz
    have hst : ShapeIs (hstackList [x,
        List.replicate S (List.replicate sep (255 : ℚ)), y,
        List.replicate S (List.replicate sep (255 : ℚ)), z])
        S (S + sep + S + sep + S) := by
      simpa [hstackList] using hchain
    exact shapeIs_congr hst rfl (by omega)
  have hvsep : ShapeIs [List.replicate (S * 3 + sep * 2) (255 : ℚ)]
      1 (3 * S + 2 * sep) := by
    refine ⟨by simp, ?_⟩
    intro row hrow
    simp only [List.mem_singleton] at hrow
    subst hrow
    simp
    omega
  unfold compose_mosaic
  rw [e1, e2, e3, e4, e5]
  apply shapeIs_reverse
  have hfull := shapeIs_append (shapeIs_append (shapeIs_append (shapeIs_append
    (hrowstack st.topleft st.midleft st.bottomleft htl hml hbl) hvsep)
    (hrowstack st.topcenter st.midcenter st.bottomcenter htc hmc hbc)) hvsep)
    (hrowstack st.topright st.midright st.bottomright htr hmr hbr)
  exact shapeIs_congr hfull (by omega) rfl

/-- C2 counterexample: with `S = 1` and `sep = 2` (stamps taken from a
3 × 3 image) the canvas is `5 × 7`, not the claimed
`(3S + 2·sep) × (3S + 2·sep) = 7 × 7`: the two `np.vstack` separators
are single rows whatever `sep` is. -/
theorem c2_mosaic_shape_counterexample :
    Img.shape (compose_mosaic (mkStamps img3x3 1) 2) = (5, 7) ∧
    (5, 7) ≠ ((3 * 1 + 2 * 2, 3 * 1 + 2 * 2) : ℕ × ℕ) := by
  constructor
  · have h := shape_of_shapeIs (compose_mosaic_shape (mkStamps img3x3 1) 1 2
      (by omega) (mkStamps_shapes img3x3 1 (by omega) (by decide) (by decide)
        (by decide))) (by omega)
    simpa using h
  · decide

/-- C2 amended: for every stampsize `S ≥ 1` and separator width
`sep ≥ 0`, the canvas has shape `(3S + 2, 3S + 2·sep)`: vertical
separator strips of width `sep` between stamps within a row, but the
horizontal separator strips between the three row stacks are always one
row high, independent of `sep`. -/
theorem c2_mosaic_shape_amended (img : Img) (S sep : ℕ) (hS : 1 ≤ S)
    (hrect : img.isRect) (hH : 3 * S ≤ img.nrows) (hW : 3 * S ≤ img.ncols) :
    Img.shape (compose_mosaic (mkStamps img S) sep) =
      (3 * S + 2, 3 * S + 2 * sep) :=
  shape_of_shapeIs (compose_mosaic_shape (mkStamps img S) S sep hS
    (mkStamps_shapes img S hS hrect hH hW)) (by omega)

/-- A concrete 6 × 6 all-zero image. -/
def img6x6 : Img := List.replicate 6 (List.replicate 6 (0 : ℚ))

/-- Witness for the amended C2 at `S = 2`, `sep = 3` on a 6 × 6 image:
canvas shape `(8, 12)`. -/
theorem c2_mosaic_shape_witness :
    (1 ≤ 2 ∧ Img.isRect img6x6 ∧ 3 * 2 ≤ Img.nrows img6x6 ∧
      3 * 2 ≤ Img.ncols img6x6) ∧
    Img.shape (compose_mosaic (mkStamps img6x6 2) 3) =
      (3 * 2 + 2, 3 * 2 + 2 * 3) := by
  refine ⟨⟨by omega, by decide, by decide, by decide⟩, ?_⟩
  exact c2_mosaic_shape_amended img6x6 2 3 (by omega) (by decide) (by decide)
    (by decide)

/-! ## Contrast Scaler claims -/

/-- C6: the Contrast Scaler returns exactly
`cap * clip(array, m - lo, m + hi) / (m + hi)` elementwise, with
`m = median(array)`: the denominator is the upper clip bound `m + hi`
alone, exactly the formula of §4.2 (`contrastScaleSpec`), not the clip
range width. -/
theorem c6_scaler_formula (img : Img) (lo hi cap : ℚ)
    (h : npMedian img + hi ≠ 0) :
    clipped_linscale_img img lo hi cap =
      (contrastScaleSpec img lo hi cap).map (List.map PyVal.fin) := by
  unfold clipped_linscale_img contrastScaleSpec npClip
  simp only [List.map_map]
  apply List.map_congr_left
  intro r hr
  simp only [Function.comp_apply, List.map_map]
  apply List.map_congr_left
  intro x hx
  simp only [Function.comp_apply]
  unfold npDiv
  rw [if_neg h]

/-- Witness for C6 on `[[0, 1, 2]]` with `lo = hi = 1`, `cap = 255`
(median 1, denominator 2). -/
theorem c6_scaler_formula_witness :
    npMedian [[(0 : ℚ), 1, 2]] + 1 ≠ 0 ∧
    clipped_linscale_img [[(0 : ℚ), 1, 2]] 1 1 255 =
      (contrastScaleSpec [[(0 : ℚ), 1, 2]] 1 1 255).map (List.map PyVal.fin) :=
  ⟨by norm_num [npMedian, sortQ, insertSorted, List.getD, clipped_linscale_img, contrastScaleSpec, npDiv, npClip, min_def, max_def], c6_scaler_formula [[(0 : ℚ), 1, 2]] 1 1 255
    (by norm_num [npMedian, sortQ, insertSorted, List.getD, clipped_linscale_img, contrastScaleSpec, npDiv, npClip, min_def, max_def])⟩

/-- C5 counterexample: the finite non-degenerate array `[[-1, 0, 1]]`
(median 0) with estimator pair `lo = 2, hi = 1` (denominator `0 + 1 ≠ 0`)
scales `-1` to `-255 < 0`, outside `[0, 255]`. -/
theorem c5_scaler_range_counterexample :
    npMedian [[(-1 : ℚ), 0, 1]] + 1 ≠ 0 ∧
    clipped_linscale_img [[(-1 : ℚ), 0, 1]] 2 1 255 =
      [[PyVal.fin (-255), PyVal.fin 0, PyVal.fin 255]] ∧
    ((-255 : ℚ) < 0) := by
  refine ⟨by norm_num [npMedian, sortQ, insertSorted, List.getD, clipped_linscale_img, contrastScaleSpec, npDiv, npClip, min_def, max_def], by norm_num [npMedian, sortQ, insertSorted, List.getD, clipped_linscale_img, contrastScaleSpec, npDiv, npClip, min_def, max_def], by norm_num⟩

/-- C5 amended: if additionally the lower clip bound `m - lo` is
non-negative (and `cap ≥ 0`), every output value of the Contrast Scaler
is finite and lies within `[0, cap]`. -/
theorem c5_scaler_range_amended (img : Img) (lo hi cap : ℚ) (hcap : 0 ≤ cap)
    (hlo : 0 ≤ npMedian img - lo) (hhi : npMedian img + hi ≠ 0) :
    ∀ row ∈ clipped_linscale_img img lo hi cap, ∀ v ∈ row,
      ∃ q : ℚ, v = PyVal.fin q ∧ 0 ≤ q ∧ q ≤ cap := by
  intro row hrow v hv
  unfold clipped_linscale_img at hrow
  simp only [List.mem_map] at hrow
  obtain ⟨r, hr, rfl⟩ := hrow
  simp only [List.mem_map] at hv
  obtain ⟨x, hx, rfl⟩ := hv
  unfold npDiv npClip
  rw [if_neg hhi]
  have key : 0 ≤ cap * min (max x (npMedian img - lo)) (npMedian img + hi) /
        (npMedian img + hi) ∧
      cap * min (max x (npMedian img - lo)) (npMedian img + hi) /
        (npMedian img + hi) ≤ cap := by
    rcases lt_trichotomy (npMedian img + hi) 0 with hneg | hzero | hpos
    · have hmle : npMedian img + hi ≤ max x (npMedian img - lo) :=
        le_trans (lt_of_lt_of_le hneg hlo).le (le_max_right x _)
      rw [min_eq_right hmle, mul_div_assoc, div_self (ne_of_lt hneg), mul_one]
      exact ⟨hcap, le_refl cap⟩
    · exact absurd hzero hhi
    · have hc0 : 0 ≤ min (max x (npMedian img - lo)) (npMedian img + hi) :=
        le_min (le_trans hlo (le_max_right x _)) hpos.le
      have hcle : min (max x (npMedian img - lo)) (npMedian img + hi) ≤
          npMedian img + hi := min_le_right _ _
      constructor
      · exact div_nonneg (mul_nonneg hcap hc0) hpos.le
      · rw [div_le_iff₀ hpos]
        exact mul_le_mul_of_nonneg_left hcle hcap
  exact ⟨_, rfl, key.1, key.2⟩

/-- Witness for the amended C5 on `[[0, 1, 2]]` with `lo = hi = 1`,
`cap = 255` (median 1, lower clip bound 0, denominator 2). -/
theorem c5_scaler_range_witness :
    (0 ≤ (255 : ℚ) ∧ 0 ≤ npMedian [[(0 : ℚ), 1, 2]] - 1 ∧
      npMedian [[(0 : ℚ), 1, 2]] + 1 ≠ 0) ∧
    (∀ row ∈ clipped_linscale_img [[(0 : ℚ), 1, 2]] 1 1 255, ∀ v ∈ row,
      ∃ q : ℚ, v = PyVal.fin q ∧ 0 ≤ q ∧ q ≤ 255) :=
  ⟨⟨by norm_num, by norm_num [npMedian, sortQ, insertSorted, List.getD, clipped_linscale_img, contrastScaleSpec, npDiv, npClip, min_def, max_def], by norm_num [npMedian, sortQ, insertSorted, List.getD, clipped_linscale_img, contrastScaleSpec, npDiv, npClip, min_def, max_def]⟩,
    c5_scaler_range_amended [[(0 : ℚ), 1, 2]] 1 1 255 (by norm_num)
      (by norm_num [npMedian, sortQ, insertSorted, List.getD, clipped_linscale_img, contrastScaleSpec, npDiv, npClip, min_def, max_def]) (by norm_num [npMedian, sortQ, insertSorted, List.getD, clipped_linscale_img, contrastScaleSpec, npDiv, npClip, min_def, max_def])⟩

/-- C7 counterexample: on `[[1]]` with `lo = 0, hi = -1` the denominator
`median + hi` is zero, and the scaler returns the non-finite pixel value
produced by the division — no failure is reported. -/
theorem c7_degenerate_counterexample :
    npMedian [[(1 : ℚ)]] + (-1) = 0 ∧
    clipped_linscale_img [[(1 : ℚ)]] 0 (-1) 255 = [[PyVal.nonfinite]] :=
  ⟨by norm_num [npMedian, sortQ, insertSorted, List.getD, clipped_linscale_img, contrastScaleSpec, npDiv, npClip, min_def, max_def], by norm_num [npMedian, sortQ, insertSorted, List.getD, clipped_linscale_img, contrastScaleSpec, npDiv, npClip, min_def, max_def]⟩

/-- C7 amended: when `median(array) + hi = 0` the Contrast Scaler
performs the division anyway and every output pixel is non-finite
(Inf/NaN); no failure is signalled. -/
theorem c7_degenerate_amended (img : Img) (lo hi cap : ℚ)
    (h : npMedian img + hi = 0) :
    clipped_linscale_img img lo hi cap =
      img.map (List.map (fun _ => PyVal.nonfinite)) := by
  unfold clipped_linscale_img
  apply List.map_congr_left
  intro r hr
  apply List.map_congr_left
  intro x hx
  unfold npDiv
  rw [if_pos h]

/-- Witness for the amended C7 on `[[1]]` with `hi = -1`, `cap = 42`. -/
theorem c7_degenerate_witness :
    npMedian [[(1 : ℚ)]] + (-1) = 0 ∧
    clipped_linscale_img [[(1 : ℚ)]] 0 (-1) 42 =
      ([[(1 : ℚ)]] : Img).map (List.map (fun _ => PyVal.nonfinite)) :=
  ⟨by norm_num [npMedian, sortQ, insertSorted, List.getD, clipped_linscale_img, contrastScaleSpec, npDiv, npClip, min_def, max_def], c7_degenerate_amended [[(1 : ℚ)]] 0 (-1) 42
    (by norm_num [npMedian, sortQ, insertSorted, List.getD, clipped_linscale_img, contrastScaleSpec, npDiv, npClip, min_def, max_def])⟩

/-! ## Batch worker claim -/

/-- C4 (code bug): the failure-path format string of
`parallel_fits_worker` has three conversion specifiers but is applied to
the 2-tuple `(fits, e)`, so the `except` block itself raises `TypeError`:
an exception during conversion is never converted into a per-file
failure result; it escapes the worker.  The success path is unaffected. -/
theorem c4_worker_format_bug :
    countSpecs workerErrorFormat.data = 3 ∧
    (∀ e : PyExc, parallel_fits_worker (Except.error e) =
      Except.error PyExc.typeError) ∧
    (∀ p : String, parallel_fits_worker (Except.ok p) =
      Except.ok (some p)) :=
  ⟨by decide, fun _ => rfl, fun _ => rfl⟩

/-! ## Trim Selector claims -/

/-- A concrete 10 × 10 all-zero image. -/
def img10x10 : Img := List.replicate 10 (List.replicate 10 (0 : ℚ))

/-- C3 counterexample: the explicit box `"[2:5,3:7]"` on a 10 × 10 array
yields shape `(5, 4)`, not the claimed `(3, 4)`: the first pair selects
columns and the second pair selects rows. -/
theorem c3_trim_box_counterexample :
    (trim_image img10x10 [] defaultTrimkeys (some "[2:5,3:7]")).map
      (fun o => o.map Img.shape) = Except.ok (some (5, 4)) ∧
    ((5, 4) : ℕ × ℕ) ≠ (3, 4) := by
  constructor
  · rfl
  · decide

/-- C3 amended: on every rectangular 10 × 10 array the explicit box
`"[2:5,3:7]"` yields `img[2:7, 1:5]`, of shape `(5, 4)`: in a box
`"[a:b,c:d]"` the FIRST pair `(a:b)` is the column range and the SECOND
pair `(c:d)` the row range, with 1 subtracted from the lower bound only
and the upper bound kept as the exclusive slice endpoint. -/
theorem c3_trim_box_amended (img : Img) (hdr : List (String × String))
    (hrect : img.isRect) (hH : img.nrows = 10) (hW : img.ncols = 10) :
    trim_image img hdr defaultTrimkeys (some "[2:5,3:7]") =
      Except.ok (some (natSlice2 2 7 1 5 img)) ∧
    Img.shape (natSlice2 2 7 1 5 img) = (5, 4) := by
  have hrows : ∀ row ∈ img, row.length = 10 := by
    intro r hr
    rw [hrect r hr, hW]
  have hlen : img.length = 10 := hH
  constructor
  · have h1 : trim_image img hdr defaultTrimkeys (some "[2:5,3:7]") =
        Except.ok (some (slice2 (some 2) (some 7) (some 1) (some 5) img)) :=
      rfl
    rw [h1]
    have h2 : slice2 (some 2) (some 7) (some 1) (some 5) img =
        natSlice2 2 7 1 5 img := by
      apply slice2_eq_natSlice2 img hrect _ _ _ _ 2 7 1 5
      · exact pySlice_some_some 2 7 img (by omega) (by omega)
      · intro xs hxs
        exact pySlice_some_some 1 5 xs (by rw [hxs, hW]; omega)
          (by rw [hxs, hW]; omega)
    rw [h2]
  · have h3 := natSlice2_shape img 10 hrows 2 7 1 5 (by omega) (by omega)
      (by omega) (by omega)
    have h4 := shape_of_shapeIs h3 (by omega)
    simpa using h4

/-- Witness for the amended C3 on the concrete 10 × 10 zero image. -/
theorem c3_trim_box_witness :
    (Img.isRect img10x10 ∧ Img.nrows img10x10 = 10 ∧
      Img.ncols img10x10 = 10) ∧
    trim_image img10x10 [] defaultTrimkeys (some "[2:5,3:7]") =
      Except.ok (some (natSlice2 2 7 1 5 img10x10)) ∧
    Img.shape (natSlice2 2 7 1 5 img10x10) = (5, 4) := by
  refine ⟨⟨by decide, by decide, by decide⟩, ?_, ?_⟩
  · exact (c3_trim_box_amended img10x10 [] (by decide) (by decide)
      (by decide)).1
  · exact (c3_trim_box_amended img10x10 [] (by decide) (by decide)
      (by decide)).2

/-- C8 counterexample: with no explicit box and a header containing none
of the trim keys, `trim_image` returns `None` — not the untrimmed input
array as claimed. -/
theorem c8_trim_leniency_counterexample :
    trim_image [[(7 : ℚ)]] [] defaultTrimkeys none = Except.ok none ∧
    (Except.ok none : Except PyExc (Option Img)) ≠
      Except.ok (some ([[(7 : ℚ)]] : Img)) := by
  constructor
  · rfl
  · simp

/-- C8 amended: when no trim key is present and no explicit box is
given, `trim_image` prints a diagnostic and returns no array (`None`),
not the untrimmed input; a selected box with non-integer tokens is the
case that returns the untrimmed array unchanged. -/
theorem c8_trim_leniency_amended (img : Img) (hdr : List (String × String))
    (keys : List String) (hnone : lookupFirst keys hdr = none) :
    trim_image img hdr keys none = Except.ok none ∧
    trim_image img hdr keys (some "[a:b,c:d]") = Except.ok (some img) := by
  constructor
  · unfold trim_image
    rw [hnone]
  · rfl

/-- Witness for the amended C8 with an empty header. -/
theorem c8_trim_leniency_witness :
    lookupFirst defaultTrimkeys [] = none ∧
    trim_image [[(3 : ℚ)]] [] defaultTrimkeys none = Except.ok none ∧
    trim_image [[(3 : ℚ)]] [] defaultTrimkeys (some "[a:b,c:d]") =
      Except.ok (some [[(3 : ℚ)]]) := by
  refine ⟨rfl, ?_, ?_⟩
  · exact (c8_trim_leniency_amended [[(3 : ℚ)]] [] defaultTrimkeys rfl).1
  · exact (c8_trim_leniency_amended [[(3 : ℚ)]] [] defaultTrimkeys rfl).2

/-- C9: the degenerate box `"[0:0,0:0]"` is the identity: whether it
arrives as the explicit box or as the first present header value,
`trim_image` returns the input array unchanged. -/
theorem c9_degenerate_box_identity (img : Img) (hdr : List (String × String))
    (keys : List String) :
    trim_image img hdr keys (some "[0:0,0:0]") = Except.ok (some img) ∧
    (lookupFirst keys hdr = some "[0:0,0:0]" →
      trim_image img hdr keys none = Except.ok (some img)) := by
  constructor
  · rfl
  · intro h
    have hred : trim_image img hdr keys none =
        (match lookupFirst keys hdr with
          | some v => trimBody img v
          | none => Except.ok none) := rfl
    rw [hred, h]
    rfl

/-- Witness for C9 with the degenerate box in a `TRIMSEC` header entry. -/
theorem c9_degenerate_box_identity_witness :
    lookupFirst ["TRIMSEC"] [("TRIMSEC", "[0:0,0:0]")] = some "[0:0,0:0]" ∧
    trim_image [[(9 : ℚ)]] [("TRIMSEC", "[0:0,0:0]")] ["TRIMSEC"]
      (some "[0:0,0:0]") = Except.ok (some [[(9 : ℚ)]]) ∧
    trim_image [[(9 : ℚ)]] [("TRIMSEC", "[0:0,0:0]")] ["TRIMSEC"] none =
      Except.ok (some [[(9 : ℚ)]]) := by
  refine ⟨rfl, ?_, ?_⟩
  · exact (c9_degenerate_box_identity [[(9 : ℚ)]]
      [("TRIMSEC", "[0:0,0:0]")] ["TRIMSEC"]).1
  · exact (c9_degenerate_box_identity [[(9 : ℚ)]]
      [("TRIMSEC", "[0:0,0:0]")] ["TRIMSEC"]).2 rfl

/-- C10 counterexample: `"[a:b]"` contains no comma, yet `trim_image`
does NOT raise: its integer parse fails first, the `except ValueError`
handler catches it, and the untrimmed array is returned. -/
theorem c10_commaless_counterexample :
    trim_image [[(4 : ℚ)]] [] defaultTrimkeys (some "[a:b]") =
      Except.ok (some [[(4 : ℚ)]]) ∧
    (Except.ok (some ([[(4 : ℚ)]] : Img)) : Except PyExc (Option Img)) ≠
      Except.error PyExc.indexError := by
  constructor
  · rfl
  · simp

/-- C10 amended: a comma-free, non-empty custombox whose single
colon-separated token list parses entirely as integers (for example
`"[2:5]"`) raises an uncaught `IndexError` when `datasec[1]` is
accessed; comma-free boxes with non-integer tokens instead hit the
`ValueError` handler and return the untrimmed array. -/
theorem c10_commaless_amended (img : Img) (hdr : List (String × String))
    (keys : List String) (s : String) (t : List Char) (l : List ℤ)
    (hne : s ≠ "")
    (hsplit : splitOnChar ',' (stripBrackets s.data) = [t])
    (hparse : parseIntPair t = some l) :
    trim_image img hdr keys (some s) = Except.error PyExc.indexError := by
  have hdeg : s ≠ "[0:0,0:0]" := by
    intro h
    subst h
    have h2 := congrArg List.length hsplit
    rw [List.length_singleton] at h2
    exact absurd h2 (by decide)
  have hred : trim_image img hdr keys (some s) = trimBody img s := by
    unfold trim_image
    exact if_pos hne
  rw [hred]
  unfold trimBody
  rw [if_pos (And.intro hne hdeg), hsplit]
  simp only [hparse]

/-- Witness for the amended C10 at the box `"[2:5]"`. -/
theorem c10_commaless_witness :
    (("[2:5]" : String) ≠ "" ∧
      splitOnChar ',' (stripBrackets ("[2:5]" : String).data) =
        [['2', ':', '5']] ∧
      parseIntPair ['2', ':', '5'] = some [2, 5]) ∧
    trim_image [[(4 : ℚ)]] [] defaultTrimkeys (some "[2:5]") =
      Except.error PyExc.indexError := by
  refine ⟨⟨by decide, by decide, by decide⟩, ?_⟩
  exact c10_commaless_amended [[(4 : ℚ)]] [] defaultTrimkeys "[2:5]"
    ['2', ':', '5'] [2, 5] (by decide) (by decide) (by decide)
